import Mathlib

/-!
Verification of the core logic of a GRBL G-code streaming controller.

The development shallowly embeds:
* `gcode_parser.py` — line normalization (`GCodeCommand.stripped`),
  parameter extraction (`GCodeCommand.get_param`), classification
  predicates, and the `GCodeFile` derivations `get_bounds` / `get_toolpath`;
* `grbl_controller.py` — status-report parsing (`_parse_status_report`),
  the character-counting streaming protocol (`_tx_loop`, `_handle_ok`,
  `_handle_error`), and the control operations (`start_stream`,
  `abort_stream`, `soft_reset`, `send_command`).

Characters are modelled as natural-number code points (the source
manipulates Python `str`; every datum of interest is ASCII).  Numeric
G-code parameters and firmware coordinates are modelled as rationals:
the Python sources only parse and compare plain decimal literals, and
all arithmetic performed on them (subtraction, min/max, comparison with
zero) is exact on the decimal values appearing in the claims.
-/

/-- Code points of a Lean string literal, used to write concrete inputs.
A character of the Python sources is modelled as its code point. -/
def strL (s : String) : List Nat := s.toList.map Char.toNat

/-- ASCII whitespace recognised by Python `str.strip()`. -/
def isSpace (c : Nat) : Bool := c == 32 || c == 9 || c == 10 || c == 13 || c == 11 || c == 12

/-- Python `str.upper()` on one character, restricted to ASCII
(G-code text; non-letter code points are fixed). -/
def upCh (c : Nat) : Nat := if 97 ≤ c ∧ c ≤ 122 then c - 32 else c

/-- Python `str.upper()` on a string. -/
def upStr (l : List Nat) : List Nat := l.map upCh

/-- `line.strip()` from the left: drop leading whitespace. -/
def lstrip (l : List Nat) : List Nat := l.dropWhile isSpace

/-- `line.strip()` from the right: drop trailing whitespace. -/
def rstrip (l : List Nat) : List Nat := (l.reverse.dropWhile isSpace).reverse

/-- Python `line.strip()`. -/
def pyStrip (l : List Nat) : List Nat := rstrip (lstrip l)

/-- `line.split(";")[0]`: everything before the first `;` (code 59). -/
def takeSemi (l : List Nat) : List Nat := l.takeWhile (fun c => !(c == 59))

/-- One match attempt of the non-greedy group body in
`re.sub(r"\(.*?\)", "", line)`: scan for the first `)` (code 41); `.`
does not cross a newline (code 10).  Returns the suffix after the
closing parenthesis when the group closes. -/
def findClose : List Nat → Option (List Nat)
  | [] => none
  | c :: r => if c = 41 then some r else if c = 10 then none else findClose r

/-- Left-to-right deletion of parenthesis groups, the effect of
`re.sub(r"\(.*?\)", "", line)`.  The Boolean flag is `true` while the
scanner is inside a group being deleted (the group is entered only when
`findClose` guarantees it closes before a newline, exactly when the
regex matches at the `(`). -/
def rpAux : Bool → List Nat → List Nat
  | _, [] => []
  | true, c :: r => if c = 41 then rpAux false r else rpAux true r
  | false, c :: r =>
    if c = 40 && (findClose r).isSome then rpAux true r
    else c :: rpAux false r

/-- `re.sub(r"\(.*?\)", "", line)`. -/
def removeParens (l : List Nat) : List Nat := rpAux false l

/-- `GCodeCommand.stripped`: remove parenthesis comments, truncate at the
first `;`, trim surrounding whitespace, upcase. -/
def strippedLine (raw : List Nat) : List Nat := upStr (pyStrip (takeSemi (removeParens raw)))

example : strippedLine (strL "G1 X5 (inline) Y6 ; tail") = strL "G1 X5  Y6" := by decide

example : strippedLine (strL "  g0 x10 (comment (nested) more") = strL "G0 X10  MORE" := by decide

/-! ### Facts about parenthesis-comment removal -/

/-- A position where `re.sub(r"\(.*?\)", "", ·)` would still find a match:
an opening parenthesis with a closing one after it, no newline between. -/
def hasOpenMatch : List Nat → Bool
  | [] => false
  | c :: r => (c == 40 && (findClose r).isSome) || hasOpenMatch r

theorem rpAux_true_eq : ∀ (r r2 : List Nat), findClose r = some r2 → rpAux true r = rpAux false r2 := by
  intro r
  induction r with
  | nil => intro r2 h; simp [findClose] at h
  | cons c t ih =>
    intro r2 h
    by_cases hc : c = 41
    · subst hc
      simp [findClose] at h
      subst h
      simp [rpAux]
    · by_cases hn : c = 10
      · subst hn; simp [findClose] at h
      · simp only [findClose, if_neg hc, if_neg hn] at h
        simpa [rpAux, hc] using ih r2 h

theorem removeParens_nil : removeParens [] = [] := rfl

theorem removeParens_open_some (r r2 : List Nat) (h : findClose r = some r2) :
    removeParens (40 :: r) = removeParens r2 := by
  unfold removeParens
  have step : rpAux false (40 :: r) = rpAux true r := by
    simp [rpAux, h]
  rw [step]
  exact rpAux_true_eq r r2 h

theorem removeParens_open_none (r : List Nat) (h : findClose r = none) :
    removeParens (40 :: r) = 40 :: removeParens r := by
  unfold removeParens
  simp [rpAux, h]

theorem removeParens_other (c : Nat) (r : List Nat) (h : c ≠ 40) :
    removeParens (c :: r) = c :: removeParens r := by
  unfold removeParens
  simp [rpAux, h]

theorem findClose_length : ∀ (l r : List Nat), findClose l = some r → r.length < l.length := by
  intro l
  induction l with
  | nil => intro r h; simp [findClose] at h
  | cons c t ih =>
    intro r h
    by_cases hc : c = 41
    · subst hc
      simp [findClose] at h
      subst h
      simp
    · by_cases hn : c = 10
      · subst hn; simp [findClose] at h
      · simp only [findClose, if_neg hc, if_neg hn] at h
        have := ih r h
        simpa using Nat.lt_succ_of_lt this

theorem findClose_none_removeParens :
    ∀ (n : Nat) (l : List Nat), l.length ≤ n → findClose l = none →
      findClose (removeParens l) = none := by
  intro n
  induction n with
  | zero =>
    intro l hl _
    have : l = [] := List.eq_nil_of_length_eq_zero (Nat.le_zero.mp hl)
    subst this
    simp [removeParens, rpAux, findClose]
  | succ n ih =>
    intro l hl h
    match l with
    | [] => simp [removeParens, rpAux, findClose]
    | c :: r =>
      have hr : r.length ≤ n := Nat.le_of_succ_le_succ hl
      by_cases hc : c = 41
      · subst hc; simp [findClose] at h
      · by_cases hn : c = 10
        · subst hn
          rw [removeParens_other 10 r (by decide)]
          simp [findClose]
        · simp only [findClose, if_neg hc, if_neg hn] at h
          by_cases h40 : c = 40
          · subst h40
            rw [removeParens_open_none r h]
            simp only [findClose, if_neg hc, if_neg hn]
            exact ih r hr h
          · rw [removeParens_other c r h40]
            simp only [findClose, if_neg hc, if_neg hn]
            exact ih r hr h

theorem hasOpenMatch_removeParens_aux :
    ∀ (n : Nat) (l : List Nat), l.length ≤ n → hasOpenMatch (removeParens l) = false := by
  intro n
  induction n with
  | zero =>
    intro l hl
    have : l = [] := List.eq_nil_of_length_eq_zero (Nat.le_zero.mp hl)
    subst this
    simp [removeParens, rpAux, hasOpenMatch]
  | succ n ih =>
    intro l hl
    match l with
    | [] => simp [removeParens, rpAux, hasOpenMatch]
    | c :: r =>
      have hr : r.length ≤ n := Nat.le_of_succ_le_succ hl
      by_cases h40 : c = 40
      · subst h40
        cases hfc : findClose r with
        | some r2 =>
          rw [removeParens_open_some r r2 hfc]
          have : r2.length ≤ n := Nat.le_of_lt (Nat.lt_of_lt_of_le (findClose_length r r2 hfc) hr)
          exact ih r2 this
        | none =>
          rw [removeParens_open_none r hfc]
          simp only [hasOpenMatch, ih r hr, Bool.or_false]
          simp [findClose_none_removeParens n r hr hfc]
      · rw [removeParens_other c r h40]
        simp only [hasOpenMatch, ih r hr, Bool.or_false]
        simp [h40]

theorem hasOpenMatch_removeParens (l : List Nat) : hasOpenMatch (removeParens l) = false :=
  hasOpenMatch_removeParens_aux l.length l le_rfl

theorem removeParens_eq_self : ∀ (l : List Nat), hasOpenMatch l = false → removeParens l = l := by
  intro l
  induction l with
  | nil => intro _; rfl
  | cons c r ih =>
    intro h
    simp only [hasOpenMatch, Bool.or_eq_false_iff, Bool.and_eq_false_iff] at h
    obtain ⟨h1, h2⟩ := h
    by_cases h40 : c = 40
    · subst h40
      have hfc : findClose r = none := by
        rcases h1 with h1 | h1
        · simp at h1
        · exact Option.not_isSome_iff_eq_none.mp (by simp [h1])
      rw [removeParens_open_none r hfc, ih h2]
    · rw [removeParens_other c r h40, ih h2]

theorem findClose_append (b : List Nat) :
    ∀ (a r : List Nat), findClose a = some r → findClose (a ++ b) = some (r ++ b) := by
  intro a
  induction a with
  | nil => intro r h; simp [findClose] at h
  | cons c t ih =>
    intro r h
    by_cases hc : c = 41
    · subst hc
      simp [findClose] at h
      subst h
      simp [findClose]
    · by_cases hn : c = 10
      · subst hn; simp [findClose] at h
      · simp only [findClose, if_neg hc, if_neg hn] at h
        simpa [findClose, hc, hn] using ih r h

theorem hasOpenMatch_append_left (b : List Nat) :
    ∀ (a : List Nat), hasOpenMatch a = true → hasOpenMatch (a ++ b) = true := by
  intro a
  induction a with
  | nil => simp [hasOpenMatch]
  | cons c t ih =>
    intro h
    simp only [hasOpenMatch, Bool.or_eq_true, Bool.and_eq_true] at h
    rcases h with ⟨h1, h2⟩ | h
    · cases hfc : findClose t with
      | none => rw [hfc] at h2; simp at h2
      | some r =>
        simp only [List.cons_append, hasOpenMatch, Bool.or_eq_true, Bool.and_eq_true]
        exact Or.inl ⟨h1, by simp [findClose_append b t r hfc]⟩
    · simp only [List.cons_append, hasOpenMatch, Bool.or_eq_true]
      exact Or.inr (ih h)

theorem hasOpenMatch_append_right (b : List Nat) :
    ∀ (a : List Nat), hasOpenMatch b = true → hasOpenMatch (a ++ b) = true := by
  intro a
  induction a with
  | nil => intro h; simpa using h
  | cons c t ih =>
    intro h
    simp only [List.cons_append, hasOpenMatch, Bool.or_eq_true]
    exact Or.inr (ih h)

theorem hasOpenMatch_append_false (a b : List Nat) (h : hasOpenMatch (a ++ b) = false) :
    hasOpenMatch a = false ∧ hasOpenMatch b = false := by
  constructor
  · cases ha : hasOpenMatch a with
    | false => rfl
    | true => rw [hasOpenMatch_append_left b a ha] at h; exact h.symm ▸ rfl
  · cases hb : hasOpenMatch b with
    | false => rfl
    | true => rw [hasOpenMatch_append_right b a hb] at h; exact h.symm ▸ rfl

/-! ### Upper-casing preserves the shape of a line -/

theorem upCh_eq_iff (c k : Nat) (hk : k < 65 ∨ 90 < k) (hk2 : ¬ (97 ≤ k ∧ k ≤ 122)) :
    upCh c = k ↔ c = k := by
  unfold upCh
  split
  · constructor
    · intro h; omega
    · intro h; omega
  · exact Iff.rfl

theorem isSpace_upCh (c : Nat) : isSpace (upCh c) = isSpace c := by
  rw [Bool.eq_iff_iff]
  simp only [isSpace, upCh, Bool.or_eq_true, beq_iff_eq]
  split
  · constructor
    · intro h; omega
    · intro h; omega
  · exact Iff.rfl

theorem upStr_cons (c : Nat) (t : List Nat) : upStr (c :: t) = upCh c :: upStr t := rfl

theorem findClose_upStr : ∀ (l : List Nat), findClose (upStr l) = (findClose l).map upStr := by
  intro l
  induction l with
  | nil => simp [findClose, upStr]
  | cons c t ih =>
    rw [upStr_cons]
    by_cases hc : c = 41
    · subst hc; simp [findClose, upCh, upStr]
    · by_cases hn : c = 10
      · subst hn; simp [findClose, upCh, upStr]
      · have h1 : upCh c ≠ 41 := fun h => hc ((upCh_eq_iff c 41 (by omega) (by omega)).mp h)
        have h2 : upCh c ≠ 10 := fun h => hn ((upCh_eq_iff c 10 (by omega) (by omega)).mp h)
        simp only [findClose, if_neg h1, if_neg h2, if_neg hc, if_neg hn]
        exact ih

theorem hasOpenMatch_upStr : ∀ (l : List Nat), hasOpenMatch (upStr l) = hasOpenMatch l := by
  intro l
  induction l with
  | nil => simp [hasOpenMatch, upStr]
  | cons c t ih =>
    rw [upStr_cons]
    simp only [hasOpenMatch]
    have h40 : (upCh c == 40) = (c == 40) := by
      rw [Bool.eq_iff_iff]
      simp only [beq_iff_eq]
      exact upCh_eq_iff c 40 (by omega) (by omega)
    rw [h40, findClose_upStr t, ih]
    cases findClose t <;> simp

/-! ### Whitespace stripping and semicolon truncation -/

theorem dropWhile_length_le (p : Nat → Bool) : ∀ (l : List Nat), (l.dropWhile p).length ≤ l.length := by
  intro l
  induction l with
  | nil => simp
  | cons c r ih =>
    rw [List.dropWhile_cons]
    by_cases hc : p c
    · rw [if_pos hc]; exact Nat.le_succ_of_le ih
    · rw [if_neg hc]

theorem lstrip_decomp (l : List Nat) : l = l.takeWhile isSpace ++ lstrip l :=
  (List.takeWhile_append_dropWhile isSpace l).symm

theorem rstrip_decomp (l : List Nat) : l = rstrip l ++ (l.reverse.takeWhile isSpace).reverse := by
  unfold rstrip
  conv_lhs => rw [← l.reverse_reverse, ← List.takeWhile_append_dropWhile isSpace l.reverse]
  rw [List.reverse_append]

theorem pyStrip_infix (l : List Nat) : ∃ a b, l = a ++ pyStrip l ++ b := by
  refine ⟨l.takeWhile isSpace, ((lstrip l).reverse.takeWhile isSpace).reverse, ?_⟩
  conv_lhs => rw [lstrip_decomp l, rstrip_decomp (lstrip l)]
  rw [List.append_assoc]
  rfl

theorem mem_pyStrip (l : List Nat) (c : Nat) (h : c ∈ pyStrip l) : c ∈ l := by
  obtain ⟨a, b, hl⟩ := pyStrip_infix l
  rw [hl]
  simp [h]

theorem hasOpenMatch_pyStrip (l : List Nat) (h : hasOpenMatch l = false) :
    hasOpenMatch (pyStrip l) = false := by
  obtain ⟨a, b, hl⟩ := pyStrip_infix l
  rw [hl] at h
  have h1 := (hasOpenMatch_append_false (a ++ pyStrip l) b h).1
  exact (hasOpenMatch_append_false a (pyStrip l) h1).2

theorem hasOpenMatch_takeSemi (l : List Nat) (h : hasOpenMatch l = false) :
    hasOpenMatch (takeSemi l) = false := by
  have hd : l = takeSemi l ++ l.dropWhile (fun c => !(c == 59)) :=
    (List.takeWhile_append_dropWhile _ l).symm
  rw [hd] at h
  exact (hasOpenMatch_append_false _ _ h).1

theorem mem_takeSemi_ne (l : List Nat) (c : Nat) (h : c ∈ takeSemi l) : c ≠ 59 := by
  have := List.mem_takeWhile_imp h
  simpa using this

theorem takeSemi_eq_self (l : List Nat) (h : ∀ c ∈ l, c ≠ 59) : takeSemi l = l := by
  induction l with
  | nil => rfl
  | cons c r ih =>
    have hc : c ≠ 59 := h c (by simp)
    simp only [takeSemi, List.takeWhile_cons]
    rw [if_pos (by simpa using hc)]
    have := ih (fun d hd => h d (by simp [hd]))
    simpa [takeSemi] using this

theorem dropWhile_head_false {p : Nat → Bool} :
    ∀ (l : List Nat) (c : Nat) (r : List Nat), l.dropWhile p = c :: r → p c = false := by
  intro l
  induction l with
  | nil => intro c r h; simp at h
  | cons d t ih =>
    intro c r h
    rw [List.dropWhile_cons] at h
    by_cases hd : p d
    · rw [if_pos hd] at h; exact ih c r h
    · rw [if_neg hd] at h
      cases h
      simpa using hd

theorem dropWhile_idem {p : Nat → Bool} (l : List Nat) :
    (l.dropWhile p).dropWhile p = l.dropWhile p := by
  cases h : l.dropWhile p with
  | nil => rfl
  | cons c r =>
    rw [List.dropWhile_cons, if_neg (by simp [dropWhile_head_false l c r h])]

theorem lstrip_idem (l : List Nat) : lstrip (lstrip l) = lstrip l := dropWhile_idem l

theorem rstrip_idem (l : List Nat) : rstrip (rstrip l) = rstrip l := by
  unfold rstrip
  rw [List.reverse_reverse, dropWhile_idem]

theorem lstrip_rstrip (l : List Nat) (h : lstrip l = l) : lstrip (rstrip l) = rstrip l := by
  cases hr : rstrip l with
  | nil => rfl
  | cons c r =>
    have hpre : ∃ b, l = (c :: r) ++ b := by
      have := rstrip_decomp l
      rw [hr] at this
      exact ⟨_, this⟩
    obtain ⟨b, hb⟩ := hpre
    have hc : isSpace c = false := by
      have hl : l.dropWhile isSpace = l := h
      rw [hb] at hl
      simp only [List.cons_append, List.dropWhile_cons] at hl
      by_cases hcs : isSpace c
      · rw [if_pos hcs] at hl
        have hlen := congrArg List.length hl
        have hle := dropWhile_length_le isSpace (r ++ b)
        simp at hlen
        simp at hle
        omega
      · simpa using hcs
    unfold lstrip
    rw [List.dropWhile_cons, if_neg (by simp [hc])]

theorem pyStrip_idem (l : List Nat) : pyStrip (pyStrip l) = pyStrip l := by
  unfold pyStrip
  rw [lstrip_rstrip (lstrip l) (lstrip_idem l), rstrip_idem]

/-! ### Upper-casing commutes with stripping and is idempotent -/

theorem dropWhile_upStr (l : List Nat) :
    (upStr l).dropWhile isSpace = upStr (l.dropWhile isSpace) := by
  induction l with
  | nil => rfl
  | cons c r ih =>
    rw [upStr_cons, List.dropWhile_cons, List.dropWhile_cons, isSpace_upCh]
    by_cases hc : isSpace c
    · rw [if_pos hc, if_pos hc]; exact ih
    · rw [if_neg hc, if_neg hc, upStr_cons]

theorem reverse_upStr (l : List Nat) : (upStr l).reverse = upStr l.reverse := by
  unfold upStr
  exact (List.map_reverse upCh l).symm

theorem pyStrip_upStr (l : List Nat) : pyStrip (upStr l) = upStr (pyStrip l) := by
  unfold pyStrip rstrip lstrip
  rw [dropWhile_upStr, reverse_upStr, dropWhile_upStr, reverse_upStr]

theorem upCh_idem (c : Nat) : upCh (upCh c) = upCh c := by
  unfold upCh
  split
  · rw [if_neg (by omega)]
  · rfl

theorem upStr_idem (l : List Nat) : upStr (upStr l) = upStr l := by
  unfold upStr
  rw [List.map_map]
  exact List.map_congr_left (fun c _ => upCh_idem c)

theorem hasOpenMatch_strippedLine (raw : List Nat) : hasOpenMatch (strippedLine raw) = false := by
  unfold strippedLine
  rw [hasOpenMatch_upStr]
  exact hasOpenMatch_pyStrip _ (hasOpenMatch_takeSemi _ (hasOpenMatch_removeParens raw))

theorem mem_strippedLine_ne_semi (raw : List Nat) (c : Nat) (h : c ∈ strippedLine raw) : c ≠ 59 := by
  unfold strippedLine upStr at h
  obtain ⟨d, hd, hdc⟩ := List.mem_map.mp h
  have hd2 := mem_pyStrip _ d hd
  have hne := mem_takeSemi_ne _ d hd2
  intro hc
  subst hc
  exact hne ((upCh_eq_iff d 59 (by omega) (by omega)).mp hdc)

/-- C3: line normalization is idempotent.  `strippedLine` is the
normalization performed by `GCodeCommand.stripped` (remove
balanced-parenthesis comments, truncate at the first `;`, trim
surrounding whitespace, uppercase); applying it to an already-normalized
line returns it unchanged: `normalize (normalize L) = normalize L` for
every raw line `L`. -/
theorem C3_normalization_idempotent (raw : List Nat) :
    strippedLine (strippedLine raw) = strippedLine raw := by
  have h1 : removeParens (strippedLine raw) = strippedLine raw :=
    removeParens_eq_self _ (hasOpenMatch_strippedLine raw)
  have h2 : takeSemi (strippedLine raw) = strippedLine raw :=
    takeSemi_eq_self _ (fun c hc => mem_strippedLine_ne_semi raw c hc)
  have expand : strippedLine (strippedLine raw)
      = upStr (pyStrip (takeSemi (removeParens (strippedLine raw)))) := rfl
  rw [expand, h1, h2]
  show upStr (pyStrip (strippedLine raw)) = strippedLine raw
  unfold strippedLine
  rw [pyStrip_upStr, pyStrip_idem, upStr_idem]

/-! ### Parameter extraction: `re.search(rf"{letter}(-?\d+\.?\d*)", stripped)` -/

/-- ASCII decimal digit. -/
def isDigitCh (c : Nat) : Bool := 48 ≤ c && c ≤ 57

/-- Numeric value of a digit string. -/
def digitsToNat (l : List Nat) : Nat := l.foldl (fun a c => 10 * a + (c - 48)) 0

/-- Greedy match of `\d+\.?\d*` at the head of `l`, returning the value
`float()` gives the matched text (integer digits, optional dot, optional
fraction digits). -/
def matchUnsigned (l : List Nat) : Option ℚ :=
  let ds := l.takeWhile isDigitCh
  if ds.isEmpty then none
  else
    match l.dropWhile isDigitCh with
    | 46 :: r2 =>
      let fs := r2.takeWhile isDigitCh
      some ((digitsToNat ds : ℚ) + (digitsToNat fs : ℚ) / (10 : ℚ) ^ fs.length)
    | _ => some ((digitsToNat ds : ℚ))

/-- Match of `-?\d+\.?\d*` at the head of `l` (the sign, when present,
is only a minus, code 45 — exactly the source regex). -/
def matchSigned (l : List Nat) : Option ℚ :=
  match l with
  | 45 :: r => (matchUnsigned r).map (fun v => -v)
  | _ => matchUnsigned l

/-- Match of the full parameter pattern at the head of `l`: the letter
`L` followed by `-?\d+\.?\d*`. -/
def matchParamAt (L : Nat) (l : List Nat) : Option ℚ :=
  match l with
  | c :: r => if c = L then matchSigned r else none
  | [] => none

/-- `re.search`: try the pattern at each position, left to right, and
return the value of the first match. -/
def searchParam (L : Nat) : List Nat → Option ℚ
  | [] => none
  | c :: r =>
    match matchParamAt L (c :: r) with
    | some v => some v
    | none => searchParam L r

example : searchParam 88 (strL "X Y10 X5") = some 5 := by decide

example : searchParam 88 (strL "G1 X-2.5") = some (-(5 / 2)) := by
  show searchParam 88 [71, 49, 32, 88, 45, 50, 46, 53] = some (-(5 / 2))
  norm_num [searchParam, matchParamAt, matchSigned, matchUnsigned, digitsToNat, isDigitCh]

example : searchParam 88 (strL "G1 X12. Y3") = some 12 := by
  show searchParam 88 [71, 49, 32, 88, 49, 50, 46, 32, 89, 51] = some 12
  norm_num [searchParam, matchParamAt, matchSigned, matchUnsigned, digitsToNat, isDigitCh]

example : searchParam 83 (strL "G1 X2 Y3") = none := by decide

/-! ### `GCodeCommand` (gcode_parser.py) -/

/-- Per-command lifecycle status (`CommandStatus` in `gcode_parser.py`). -/
inductive CommandStatus where
  | QUEUED
  | SENT
  | OK
  | ERROR
deriving DecidableEq

/-- A single G-code command with metadata (`GCodeCommand`). -/
structure GCodeCommand where
  raw : List Nat
  status : CommandStatus := .QUEUED
  error_code : Option Nat := none
deriving DecidableEq

/-- `GCodeCommand.stripped`. -/
def GCodeCommand.stripped (c : GCodeCommand) : List Nat := strippedLine c.raw

/-- `GCodeCommand.is_empty`. -/
def GCodeCommand.is_empty (c : GCodeCommand) : Bool := c.stripped.isEmpty

/-- `GCodeCommand.is_movement`: `re.match(r"^G[0-3]", stripped)`. -/
def GCodeCommand.is_movement (c : GCodeCommand) : Bool :=
  match c.stripped with
  | 71 :: d :: _ => 48 ≤ d && d ≤ 51
  | _ => false

/-- Python substring containment `pat in s`. -/
def containsSub (pat : List Nat) : List Nat → Bool
  | [] => pat.isEmpty
  | c :: r => pat.isPrefixOf (c :: r) || containsSub pat r

/-- `GCodeCommand.is_laser_on`: `"M3" in s or "M4" in s`. -/
def GCodeCommand.is_laser_on (c : GCodeCommand) : Bool :=
  containsSub (strL "M3") c.stripped || containsSub (strL "M4") c.stripped

/-- `GCodeCommand.is_laser_off`: `"M5" in stripped`. -/
def GCodeCommand.is_laser_off (c : GCodeCommand) : Bool :=
  containsSub (strL "M5") c.stripped

/-- `GCodeCommand.get_param(letter)`. -/
def GCodeCommand.get_param (c : GCodeCommand) (L : Nat) : Option ℚ :=
  searchParam L c.stripped

/-- `GCodeCommand.serial_bytes`: stripped line + newline (ASCII). -/
def GCodeCommand.serial_bytes (c : GCodeCommand) : List Nat := c.stripped ++ [10]

/-- `GCodeCommand.byte_count`. -/
def GCodeCommand.byte_count (c : GCodeCommand) : Nat := c.serial_bytes.length

example : (GCodeCommand.mk (strL "g1 x5 s100 (c)") .QUEUED none).get_param 83 = some 100 := by decide

example : (GCodeCommand.mk (strL "G0X10Y20") .QUEUED none).is_movement = true := by decide

example : (GCodeCommand.mk (strL "G0 X1") .QUEUED none).byte_count = 6 := by decide

/-! ### C7: parameter lookup -/

/-- Modelled from the claim's words, for comparison with the source: the
same matcher but with an optional sign that may be plus (43) or minus
(45).  The source regex `-?\d+\.?\d*` admits only the minus. -/
def matchSignedPM (l : List Nat) : Option ℚ :=
  match l with
  | 45 :: r => (matchUnsigned r).map (fun v => -v)
  | 43 :: r => matchUnsigned r
  | _ => matchUnsigned l

/-- The claim's pattern at one position: letter, optional `+`/`-` sign,
decimal number. -/
def matchParamAtPM (L : Nat) (l : List Nat) : Option ℚ :=
  match l with
  | c :: r => if c = L then matchSignedPM r else none
  | [] => none

/-- First-match search for the claim's pattern. -/
def searchParamPM (L : Nat) : List Nat → Option ℚ
  | [] => none
  | c :: r =>
    match matchParamAtPM L (c :: r) with
    | some v => some v
    | none => searchParamPM L r

/-- C7 counterexample: the normalized line `G1 X+5` contains an
occurrence of the letter `X` followed by an (optional) sign `+` and the
decimal number `5` — a lookup honouring "an optional sign" returns 5 —
yet `get_param` returns none, because the source regex
`X(-?\d+\.?\d*)` admits only a minus sign. -/
theorem C7_counterexample :
    (GCodeCommand.mk (strL "G1 X+5") .QUEUED none).get_param 88 = none ∧
    searchParamPM 88 (strippedLine (strL "G1 X+5")) = some 5 := by
  constructor
  · decide
  · decide

theorem searchParam_first_match (L : Nat) : ∀ (l : List Nat),
    (∀ v, searchParam L l = some v ↔
      ∃ i, matchParamAt L (l.drop i) = some v ∧ ∀ j < i, matchParamAt L (l.drop j) = none) ∧
    (searchParam L l = none ↔ ∀ i, matchParamAt L (l.drop i) = none) := by
  intro l
  induction l with
  | nil =>
    constructor
    · intro v
      constructor
      · intro h; simp [searchParam] at h
      · rintro ⟨i, hi, _⟩
        rw [List.drop_nil] at hi
        simp [matchParamAt] at hi
    · constructor
      · intro _ i
        rw [List.drop_nil]
        simp [matchParamAt]
      · intro _; rfl
  | cons c r ih =>
    cases hm : matchParamAt L (c :: r) with
    | some v0 =>
      have hs : searchParam L (c :: r) = some v0 := by simp [searchParam, hm]
      constructor
      · intro v
        constructor
        · intro h
          rw [hs] at h
          have hv : v0 = v := Option.some.inj h
          exact ⟨0, by rw [List.drop_zero, hm, hv], fun j hj => absurd hj (Nat.not_lt_zero j)⟩
        · rintro ⟨i, hi, hb⟩
          match i with
          | 0 =>
            rw [List.drop_zero, hm] at hi
            rw [hs, hi]
          | i + 1 =>
            have h0 := hb 0 (Nat.succ_pos i)
            rw [List.drop_zero, hm] at h0
            cases h0
      · constructor
        · intro h; rw [hs] at h; cases h
        · intro h
          have h0 := h 0
          rw [List.drop_zero, hm] at h0
          cases h0
    | none =>
      have hs : searchParam L (c :: r) = searchParam L r := by simp [searchParam, hm]
      obtain ⟨ihs, ihn⟩ := ih
      constructor
      · intro v
        rw [hs, ihs v]
        constructor
        · rintro ⟨i, hi, hb⟩
          refine ⟨i + 1, ?_, ?_⟩
          · simpa [List.drop_succ_cons] using hi
          · intro j hj
            match j with
            | 0 => simpa using hm
            | j + 1 =>
              have := hb j (by omega)
              simpa [List.drop_succ_cons] using this
        · rintro ⟨i, hi, hb⟩
          match i with
          | 0 =>
            rw [List.drop_zero, hm] at hi
            cases hi
          | i + 1 =>
            refine ⟨i, ?_, ?_⟩
            · simpa [List.drop_succ_cons] using hi
            · intro j hj
              have := hb (j + 1) (by omega)
              simpa [List.drop_succ_cons] using this
      · rw [hs, ihn]
        constructor
        · intro h i
          match i with
          | 0 => simpa using hm
          | i + 1 => simpa [List.drop_succ_cons] using h i
        · intro h i
          have := h (i + 1)
          simpa [List.drop_succ_cons] using this

/-- C7 (amended): for every command and parameter letter `L`,
`get_param` returns the numeric value of the first occurrence in the
normalized text of `L` followed by an optional minus sign and a decimal
number (`matchParamAt`, the source regex pattern; a plus sign is not
recognised), and returns none exactly when no position of the
normalized text matches. -/
theorem C7_get_param_first_occurrence (cmd : GCodeCommand) (L : Nat) :
    (∀ v, cmd.get_param L = some v ↔
      ∃ i, matchParamAt L (cmd.stripped.drop i) = some v ∧
        ∀ j < i, matchParamAt L (cmd.stripped.drop j) = none) ∧
    (cmd.get_param L = none ↔ ∀ i, matchParamAt L (cmd.stripped.drop i) = none) :=
  searchParam_first_match L cmd.stripped

/-! ### `GCodeFile` (gcode_parser.py): bounds and toolpath -/

/-- A loaded G-code program (`GCodeFile`). -/
structure GCodeFile where
  commands : List GCodeCommand

/-- Accumulator of the `get_bounds` loop.  The Python loop seeds
`min_x`/`min_y` with `float("inf")` and `max_x`/`max_y` with
`float("-inf")` and finally tests `min_x == float("inf")`; the untouched
sentinel is modelled as `none`. -/
structure BoundsAcc where
  x : ℚ
  y : ℚ
  min_x : Option ℚ
  min_y : Option ℚ
  max_x : Option ℚ
  max_y : Option ℚ

/-- `min(acc, v)` where `none` stands for `float("inf")`. -/
def omin (o : Option ℚ) (v : ℚ) : ℚ :=
  match o with
  | none => v
  | some m => min m v

/-- `max(acc, v)` where `none` stands for `float("-inf")`. -/
def omax (o : Option ℚ) (v : ℚ) : ℚ :=
  match o with
  | none => v
  | some m => max m v

/-- One iteration of the `get_bounds` loop body. -/
def boundsStep (st : BoundsAcc) (cmd : GCodeCommand) : BoundsAcc :=
  let x := (cmd.get_param 88).getD st.x
  let y := (cmd.get_param 89).getD st.y
  if cmd.is_movement then
    { x := x, y := y,
      min_x := some (omin st.min_x x), min_y := some (omin st.min_y y),
      max_x := some (omax st.max_x x), max_y := some (omax st.max_y y) }
  else
    { st with x := x, y := y }

/-- `GCodeFile.get_bounds`.  The final test is the source's
`min_x == float("inf")`; the three `getD 0` defaults are never taken,
since the four accumulators become defined together (see
`boundsFold_some`). -/
def GCodeFile.get_bounds (f : GCodeFile) : ℚ × ℚ × ℚ × ℚ :=
  let st := f.commands.foldl boundsStep ⟨0, 0, none, none, none, none⟩
  match st.min_x with
  | none => (0, 0, 0, 0)
  | some a => (a, st.min_y.getD 0, st.max_x.getD 0, st.max_y.getD 0)

/-- Modal end positions of the motion commands, as the claim states
them: position is tracked across the whole program, an axis keeps its
last value when its parameter is omitted, starting from the origin. -/
def motionPoints : List GCodeCommand → ℚ → ℚ → List (ℚ × ℚ)
  | [], _, _ => []
  | c :: r, x, y =>
    let x1 := (c.get_param 88).getD x
    let y1 := (c.get_param 89).getD y
    if c.is_movement then (x1, y1) :: motionPoints r x1 y1
    else motionPoints r x1 y1

/-- Minimum of `a` and the elements of `l`. -/
def foldMin (a : ℚ) (l : List ℚ) : ℚ := l.foldl min a

/-- Maximum of `a` and the elements of `l`. -/
def foldMax (a : ℚ) (l : List ℚ) : ℚ := l.foldl max a

/-- The bounding box exactly as the claim words it: component-wise
min/max over the modal end positions of the motion commands, and
`(0, 0, 0, 0)` when there are none. -/
def specBounds (f : GCodeFile) : ℚ × ℚ × ℚ × ℚ :=
  match motionPoints f.commands 0 0 with
  | [] => (0, 0, 0, 0)
  | p :: ps =>
    (foldMin p.1 (ps.map Prod.fst), foldMin p.2 (ps.map Prod.snd),
     foldMax p.1 (ps.map Prod.fst), foldMax p.2 (ps.map Prod.snd))

theorem boundsFold_some :
    ∀ (cmds : List GCodeCommand) (x y a b u w : ℚ),
      ∃ x2 y2,
        cmds.foldl boundsStep ⟨x, y, some a, some b, some u, some w⟩ =
          ⟨x2, y2,
            some (foldMin a ((motionPoints cmds x y).map Prod.fst)),
            some (foldMin b ((motionPoints cmds x y).map Prod.snd)),
            some (foldMax u ((motionPoints cmds x y).map Prod.fst)),
            some (foldMax w ((motionPoints cmds x y).map Prod.snd))⟩ := by
  intro cmds
  induction cmds with
  | nil => intro x y a b u w; exact ⟨x, y, rfl⟩
  | cons c r ih =>
    intro x y a b u w
    rw [List.foldl_cons]
    show ∃ x2 y2, List.foldl boundsStep (boundsStep ⟨x, y, some a, some b, some u, some w⟩ c) r = _
    by_cases hm : c.is_movement
    · rw [show boundsStep ⟨x, y, some a, some b, some u, some w⟩ c =
          ⟨(c.get_param 88).getD x, (c.get_param 89).getD y,
           some (min a ((c.get_param 88).getD x)), some (min b ((c.get_param 89).getD y)),
           some (max u ((c.get_param 88).getD x)), some (max w ((c.get_param 89).getD y))⟩ by
        simp [boundsStep, hm, omin, omax]]
      obtain ⟨x2, y2, hfold⟩ := ih ((c.get_param 88).getD x) ((c.get_param 89).getD y)
        (min a ((c.get_param 88).getD x)) (min b ((c.get_param 89).getD y))
        (max u ((c.get_param 88).getD x)) (max w ((c.get_param 89).getD y))
      refine ⟨x2, y2, ?_⟩
      rw [hfold]
      simp [motionPoints, hm, foldMin, foldMax]
    · rw [show boundsStep ⟨x, y, some a, some b, some u, some w⟩ c =
          ⟨(c.get_param 88).getD x, (c.get_param 89).getD y,
           some a, some b, some u, some w⟩ by simp [boundsStep, hm]]
      obtain ⟨x2, y2, hfold⟩ := ih ((c.get_param 88).getD x) ((c.get_param 89).getD y) a b u w
      refine ⟨x2, y2, ?_⟩
      rw [hfold]
      simp [motionPoints, hm]

theorem boundsFold_start :
    ∀ (cmds : List GCodeCommand) (x y : ℚ),
      (motionPoints cmds x y = [] ∧
        ∃ x2 y2, cmds.foldl boundsStep ⟨x, y, none, none, none, none⟩ =
          ⟨x2, y2, none, none, none, none⟩) ∨
      (∃ p ps, motionPoints cmds x y = p :: ps ∧
        ∃ x2 y2, cmds.foldl boundsStep ⟨x, y, none, none, none, none⟩ =
          ⟨x2, y2,
            some (foldMin p.1 (ps.map Prod.fst)), some (foldMin p.2 (ps.map Prod.snd)),
            some (foldMax p.1 (ps.map Prod.fst)), some (foldMax p.2 (ps.map Prod.snd))⟩) := by
  intro cmds
  induction cmds with
  | nil => intro x y; exact Or.inl ⟨rfl, x, y, rfl⟩
  | cons c r ih =>
    intro x y
    rw [List.foldl_cons]
    by_cases hm : c.is_movement
    · right
      rw [show boundsStep ⟨x, y, none, none, none, none⟩ c =
          ⟨(c.get_param 88).getD x, (c.get_param 89).getD y,
           some ((c.get_param 88).getD x), some ((c.get_param 89).getD y),
           some ((c.get_param 88).getD x), some ((c.get_param 89).getD y)⟩ by
        simp [boundsStep, hm, omin, omax]]
      obtain ⟨x2, y2, hfold⟩ := boundsFold_some r ((c.get_param 88).getD x)
        ((c.get_param 89).getD y) ((c.get_param 88).getD x) ((c.get_param 89).getD y)
        ((c.get_param 88).getD x) ((c.get_param 89).getD y)
      refine ⟨((c.get_param 88).getD x, (c.get_param 89).getD y),
        motionPoints r ((c.get_param 88).getD x) ((c.get_param 89).getD y), ?_, x2, y2, ?_⟩
      · simp [motionPoints, hm]
      · rw [hfold]
    · rw [show boundsStep ⟨x, y, none, none, none, none⟩ c =
          ⟨(c.get_param 88).getD x, (c.get_param 89).getD y, none, none, none, none⟩ by
        simp [boundsStep, hm]]
      have hmp : motionPoints (c :: r) x y
          = motionPoints r ((c.get_param 88).getD x) ((c.get_param 89).getD y) := by
        simp [motionPoints, hm]
      rw [hmp]
      exact ih ((c.get_param 88).getD x) ((c.get_param 89).getD y)

/-- C5: `get_bounds` returns the component-wise minimum and maximum over
the modally tracked end positions of the motion commands (`specBounds`,
written from the claim), and `(0, 0, 0, 0)` when the program has no
motion command. -/
theorem C5_bounds_correct (f : GCodeFile) : f.get_bounds = specBounds f := by
  unfold GCodeFile.get_bounds specBounds
  rcases boundsFold_start f.commands 0 0 with ⟨hmp, x2, y2, hfold⟩ | ⟨p, ps, hmp, x2, y2, hfold⟩
  · rw [hmp, hfold]
  · rw [hmp, hfold]
    rfl

/-! ### C6: toolpath -/

/-- `power is not None and power > 0` for the `S` parameter. -/
def isPosPower (c : GCodeCommand) : Bool :=
  match c.get_param 83 with
  | some p => decide (0 < p)
  | none => false

/-- The `get_toolpath` loop: update the laser state from M3/M4/M5,
update the modal position, then record one point per motion command. -/
def toolpathGo : List GCodeCommand → ℚ → ℚ → Bool → List (ℚ × ℚ × Bool)
  | [], _, _, _ => []
  | c :: r, x, y, laser_on =>
    let on1 := if c.is_laser_on then true else if c.is_laser_off then false else laser_on
    let x1 := (c.get_param 88).getD x
    let y1 := (c.get_param 89).getD y
    if c.is_movement then
      (x1, y1, on1 || isPosPower c) :: toolpathGo r x1 y1 on1
    else
      toolpathGo r x1 y1 on1

/-- `GCodeFile.get_toolpath`. -/
def GCodeFile.get_toolpath (f : GCodeFile) : List (ℚ × ℚ × Bool) :=
  toolpathGo f.commands 0 0 false

/-- Laser state after a processed prefix of the program, as the claim
words it: enabled when an M3/M4 line was seen with no later M5 line (a
line carrying M3 or M4 enables even if it also carries M5, matching the
source's `if is_laser_on / elif is_laser_off` precedence). -/
def laserEnabled (pfx : List GCodeCommand) : Bool :=
  pfx.foldl (fun en c => if c.is_laser_on then true else if c.is_laser_off then false else en) false

/-- The claim's toolpath, tracking the processed prefix explicitly:
one tuple per motion command, cutting exactly when the laser is enabled
by the prefix up to and including this line, or the command carries a
strictly positive `S` parameter. -/
def specToolpathAux : List GCodeCommand → List GCodeCommand → ℚ → ℚ → List (ℚ × ℚ × Bool)
  | _, [], _, _ => []
  | seen, c :: r, x, y =>
    let x1 := (c.get_param 88).getD x
    let y1 := (c.get_param 89).getD y
    if c.is_movement then
      (x1, y1, laserEnabled (seen ++ [c]) || isPosPower c) :: specToolpathAux (seen ++ [c]) r x1 y1
    else
      specToolpathAux (seen ++ [c]) r x1 y1

/-- Toolpath as the claim states it. -/
def specToolpath (f : GCodeFile) : List (ℚ × ℚ × Bool) :=
  specToolpathAux [] f.commands 0 0

theorem laserEnabled_concat (seen : List GCodeCommand) (c : GCodeCommand) :
    laserEnabled (seen ++ [c])
      = (if c.is_laser_on then true else if c.is_laser_off then false else laserEnabled seen) := by
  unfold laserEnabled
  rw [List.foldl_append]
  rfl

theorem toolpathGo_spec :
    ∀ (rest seen : List GCodeCommand) (x y : ℚ),
      toolpathGo rest x y (laserEnabled seen) = specToolpathAux seen rest x y := by
  intro rest
  induction rest with
  | nil => intro seen x y; rfl
  | cons c r ih =>
    intro seen x y
    show (let on1 := if c.is_laser_on then true else if c.is_laser_off then false
            else laserEnabled seen
          let x1 := (c.get_param 88).getD x
          let y1 := (c.get_param 89).getD y
          if c.is_movement then (x1, y1, on1 || isPosPower c) :: toolpathGo r x1 y1 on1
          else toolpathGo r x1 y1 on1) = _
    rw [show (if c.is_laser_on then true else if c.is_laser_off then false
        else laserEnabled seen) = laserEnabled (seen ++ [c]) from (laserEnabled_concat seen c).symm]
    show (if c.is_movement then
            ((c.get_param 88).getD x, (c.get_param 89).getD y,
              laserEnabled (seen ++ [c]) || isPosPower c)
              :: toolpathGo r ((c.get_param 88).getD x) ((c.get_param 89).getD y)
                   (laserEnabled (seen ++ [c]))
          else toolpathGo r ((c.get_param 88).getD x) ((c.get_param 89).getD y)
                 (laserEnabled (seen ++ [c]))) = _
    rw [ih (seen ++ [c]) ((c.get_param 88).getD x) ((c.get_param 89).getD y)]
    rfl

/-- C6: `get_toolpath` returns one `(x, y, cutting?)` tuple per motion
command, in program order, with modally tracked `x` and `y`, where
`cutting?` is true exactly when the laser is enabled (an M3/M4 line seen
up to and including this line with no intervening M5) or the command
carries a strictly positive `S` parameter (`specToolpath`, written from
the claim). -/
theorem C6_toolpath_correct (f : GCodeFile) : f.get_toolpath = specToolpath f := by
  have h := toolpathGo_spec f.commands [] 0 0
  simpa [GCodeFile.get_toolpath, specToolpath, laserEnabled] using h

example : (GCodeFile.mk [GCodeCommand.mk (strL "M3") .QUEUED none,
    GCodeCommand.mk (strL "G1 X2 S0") .QUEUED none,
    GCodeCommand.mk (strL "M5") .QUEUED none,
    GCodeCommand.mk (strL "G0 X1 Y1") .QUEUED none,
    GCodeCommand.mk (strL "G1 X3 S5") .QUEUED none]).get_toolpath
    = [(2, 0, true), (1, 1, false), (3, 1, true)] := by decide

/-! ### C4: `_parse_status_report` (grbl_controller.py) -/

/-- Firmware machine states (`MachineStatus`). -/
inductive MachineStatus where
  | DISCONNECTED
  | CONNECTING
  | IDLE
  | RUN
  | JOG
  | HOLD
  | DOOR
  | HOME
  | ALARM
  | CHECK
  | UNKNOWN
deriving DecidableEq

/-- Controller state touched by `_parse_status_report`: firmware status,
machine and work coordinates, feed rate and spindle speed. -/
structure CtrlState where
  status : MachineStatus
  machine_x : ℚ
  machine_y : ℚ
  machine_z : ℚ
  work_x : ℚ
  work_y : ℚ
  work_z : ℚ
  feed_rate : ℚ
  spindle_speed : ℚ
deriving DecidableEq

/-- The controller's initial coordinates and status (`__init__`). -/
def initCtrl : CtrlState := ⟨.DISCONNECTED, 0, 0, 0, 0, 0, 0, 0, 0⟩

/-- Python `float()` on an unsigned plain decimal literal (digits with
an optional decimal point).  Exponent notation, `inf` and `nan` do not
occur in GRBL status reports and are outside the model. -/
def decNum (l : List Nat) : Option ℚ :=
  let ds := l.takeWhile isDigitCh
  match l.dropWhile isDigitCh with
  | [] => if ds.isEmpty then none else some ((digitsToNat ds : ℚ))
  | 46 :: r2 =>
    let fs := r2.takeWhile isDigitCh
    if (r2.dropWhile isDigitCh).isEmpty then
      if ds.isEmpty && fs.isEmpty then none
      else some ((digitsToNat ds : ℚ) + (digitsToNat fs : ℚ) / (10 : ℚ) ^ fs.length)
    else none
  | _ => none

/-- Python `float()` on decimal notation: optional surrounding
whitespace, optional sign, then an unsigned decimal literal.  `none`
models the `ValueError` on malformed input. -/
def pyFloat (l : List Nat) : Option ℚ :=
  match pyStrip l with
  | 45 :: r => (decNum r).map (fun v => -v)
  | 43 :: r => decNum r
  | r => decNum r

example : pyFloat (strL "10") = some 10 := by decide

example : pyFloat (strL "-1.5") = some (-(3 / 2)) := by
  show pyFloat [45, 49, 46, 53] = some (-(3 / 2))
  norm_num [pyFloat, pyStrip, lstrip, rstrip, isSpace, decNum, digitsToNat, isDigitCh]

example : pyFloat (strL "") = none := by decide

example : pyFloat (strL "abc") = none := by decide

/-- Python `s.split(sep)` for a one-character separator. -/
def splitCh (sep : Nat) : List Nat → List (List Nat)
  | [] => [[]]
  | c :: r =>
    match splitCh sep r with
    | h :: t => if c = sep then [] :: h :: t else (c :: h) :: t
    | [] => [[c]]

example : splitCh 44 (strL "10,5,0") = [strL "10", strL "5", strL "0"] := by decide

example : splitCh 124 (strL "") = [[]] := by decide

/-- `line.strip("<>")`: the strip set is the two angle brackets. -/
def isAngle (c : Nat) : Bool := c == 60 || c == 62

/-- `line.strip("<>")`. -/
def stripAngle (l : List Nat) : List Nat :=
  ((l.dropWhile isAngle).reverse.dropWhile isAngle).reverse

/-- Map the first status-report field to `MachineStatus`: strip
whitespace, keep the base word before `:` (sub-states such as `Hold:0`),
look it up; unknown words give UNKNOWN. -/
def parseState (w : List Nat) : MachineStatus :=
  let base := (pyStrip w).takeWhile (fun c => !(c == 58))
  if base = strL "Idle" then .IDLE
  else if base = strL "Run" then .RUN
  else if base = strL "Jog" then .JOG
  else if base = strL "Hold" then .HOLD
  else if base = strL "Door" then .DOOR
  else if base = strL "Home" then .HOME
  else if base = strL "Alarm" then .ALARM
  else if base = strL "Check" then .CHECK
  else .UNKNOWN

/-- One `key:value` field of a status report (the body of the
`for part in parts[1:]` loop).  `none` models a `float()` exception,
which aborts the report (the RX loop catches and drops the line);
updates made by earlier parts survive in `applyParts`, and partial
updates inside the failing part itself are not observed by any claim. -/
def applyPart (st : CtrlState) (part : List Nat) : Option CtrlState :=
  if (strL "MPos:").isPrefixOf part then
    let coords := splitCh 44 (part.drop 5)
    if 2 ≤ coords.length then
      match pyFloat (coords.getD 0 []), pyFloat (coords.getD 1 []),
          (if 2 < coords.length then pyFloat (coords.getD 2 []) else some 0) with
      | some a, some b, some z => some { st with machine_x := a, machine_y := b, machine_z := z }
      | _, _, _ => none
    else some st
  else if (strL "WPos:").isPrefixOf part then
    let coords := splitCh 44 (part.drop 5)
    if 2 ≤ coords.length then
      match pyFloat (coords.getD 0 []), pyFloat (coords.getD 1 []),
          (if 2 < coords.length then pyFloat (coords.getD 2 []) else some 0) with
      | some a, some b, some z => some { st with work_x := a, work_y := b, work_z := z }
      | _, _, _ => none
    else some st
  else if (strL "WCO:").isPrefixOf part then
    let coords := splitCh 44 (part.drop 4)
    if 2 ≤ coords.length then
      match pyFloat (coords.getD 0 []), pyFloat (coords.getD 1 []) with
      | some a, some b => some { st with work_x := st.machine_x - a, work_y := st.machine_y - b }
      | _, _ => none
    else some st
  else if (strL "FS:").isPrefixOf part || (strL "F:").isPrefixOf part then
    let vals := splitCh 44 ((splitCh 58 part).getD 1 [])
    match pyFloat (vals.getD 0 []) with
    | none => none
    | some fr =>
      if 1 < vals.length then
        match pyFloat (vals.getD 1 []) with
        | some sp => some { st with feed_rate := fr, spindle_speed := sp }
        | none => none
      else some { st with feed_rate := fr }
  else some st

/-- `for part in parts[1:]`, propagating a `float()` exception. -/
def applyParts : CtrlState → List (List Nat) → Option CtrlState
  | st, [] => some st
  | st, p :: r =>
    match applyPart st p with
    | none => none
    | some st2 => applyParts st2 r

/-- `_parse_status_report`: strip `<>`, split on `|`, map the state
word through the state table, then fold the remaining fields. -/
def parse_status_report (st : CtrlState) (line : List Nat) : Option CtrlState :=
  let parts := splitCh 124 (stripAngle line)
  let st1 :=
    match parts with
    | [] => st
    | w :: _ => { st with status := parseState w }
  applyParts st1 (parts.drop 1)

/-! Evaluation lemmas for the string constants of the status-report
parser, so that `simp`/`norm_num` can run it on concrete lines. -/

theorem strL_MPos : strL "MPos:" = [77, 80, 111, 115, 58] := rfl

theorem strL_WPos : strL "WPos:" = [87, 80, 111, 115, 58] := rfl

theorem strL_WCO : strL "WCO:" = [87, 67, 79, 58] := rfl

theorem strL_FS : strL "FS:" = [70, 83, 58] := rfl

theorem strL_F : strL "F:" = [70, 58] := rfl

theorem strL_Idle : strL "Idle" = [73, 100, 108, 101] := rfl

theorem strL_Run : strL "Run" = [82, 117, 110] := rfl

theorem strL_Jog : strL "Jog" = [74, 111, 103] := rfl

theorem strL_Hold : strL "Hold" = [72, 111, 108, 100] := rfl

theorem strL_Door : strL "Door" = [68, 111, 111, 114] := rfl

theorem strL_Home : strL "Home" = [72, 111, 109, 101] := rfl

theorem strL_Alarm : strL "Alarm" = [65, 108, 97, 114, 109] := rfl

theorem strL_Check : strL "Check" = [67, 104, 101, 99, 107] := rfl

theorem chvSpace : (' ').toNat = 32 := rfl

theorem chvColon : (':').toNat = 58 := rfl

theorem chvUA : ('A').toNat = 65 := rfl

theorem chvUC : ('C').toNat = 67 := rfl

theorem chvUD : ('D').toNat = 68 := rfl

theorem chvUF : ('F').toNat = 70 := rfl

theorem chvUH : ('H').toNat = 72 := rfl

theorem chvUI : ('I').toNat = 73 := rfl

theorem chvUJ : ('J').toNat = 74 := rfl

theorem chvUM : ('M').toNat = 77 := rfl

theorem chvUO : ('O').toNat = 79 := rfl

theorem chvUP : ('P').toNat = 80 := rfl

theorem chvUR : ('R').toNat = 82 := rfl

theorem chvUS : ('S').toNat = 83 := rfl

theorem chvUW : ('W').toNat = 87 := rfl

theorem chvlA : ('a').toNat = 97 := rfl

theorem chvlC : ('c').toNat = 99 := rfl

theorem chvlD : ('d').toNat = 100 := rfl

theorem chvlE : ('e').toNat = 101 := rfl

theorem chvlG : ('g').toNat = 103 := rfl

theorem chvlH : ('h').toNat = 104 := rfl

theorem chvlK : ('k').toNat = 107 := rfl

theorem chvlL : ('l').toNat = 108 := rfl

theorem chvlM : ('m').toNat = 109 := rfl

theorem chvlN : ('n').toNat = 110 := rfl

theorem chvlO : ('o').toNat = 111 := rfl

theorem chvlR : ('r').toNat = 114 := rfl

theorem chvlS : ('s').toNat = 115 := rfl

theorem chvlU : ('u').toNat = 117 := rfl

/-- C4 counterexample: for the status line
`<Run|MPos:10.000,5.000,4.000|WCO:1.000,2.000,3.000>` — whose fields
include WCO but not WPos — the resulting work position is (9, 3, 0):
the z component is left unchanged by the WCO handler rather than set to
machine_z − WCO_z = 4 − 3 = 1, so "sets the work position to machine
position minus WCO" fails in the z component.  (With the WCO field
ordered before MPos the x and y components fail as well, since the
offset is subtracted from the machine position current when the WCO
field is processed.) -/
theorem C4_counterexample :
    parse_status_report initCtrl
        (strL "<Run|MPos:10.000,5.000,4.000|WCO:1.000,2.000,3.000>")
      = some ⟨.RUN, 10, 5, 4, 9, 3, 0, 0, 0⟩ ∧ (0 : ℚ) ≠ 4 - 3 := by
  constructor
  · show parse_status_report initCtrl
      [60, 82, 117, 110, 124, 77, 80, 111, 115, 58, 49, 48, 46, 48, 48, 48, 44, 53, 46, 48, 48, 48, 44, 52, 46, 48, 48, 48, 124, 87, 67, 79, 58, 49, 46, 48, 48, 48, 44, 50, 46, 48, 48, 48, 44, 51, 46, 48, 48, 48, 62]
      = some ⟨.RUN, 10, 5, 4, 9, 3, 0, 0, 0⟩
    norm_num [parse_status_report, stripAngle, isAngle, splitCh, parseState, pyStrip, lstrip, rstrip,
    isSpace, applyParts, applyPart, pyFloat, decNum, digitsToNat, isDigitCh,
    initCtrl, strL_MPos, strL_WPos, strL_WCO, strL_FS, strL_F, strL_Idle, strL_Run, strL_Jog,
    strL_Hold, strL_Door, strL_Home, strL_Alarm, strL_Check, List.isPrefixOf,
    chvSpace, chvColon, chvUA, chvUC, chvUD, chvUF, chvUH, chvUI, chvUJ, chvUM, chvUO, chvUP, chvUR, chvUS, chvUW, chvlA, chvlC, chvlD, chvlE, chvlG, chvlH, chvlK, chvlL, chvlM, chvlN, chvlO, chvlR, chvlS, chvlU]
  · norm_num

/-- C4 (amended): a WCO field with at least two parseable coordinates
sets the x and y work coordinates to the current machine x and y minus
the offsets (hence equal to machine − WCO in x and y whenever MPos
precedes WCO, as in GRBL reports) and leaves the z work coordinate
unchanged; in particular the claim's concrete line
`<Run|MPos:10.000,5.000,0.000|WCO:1.000,2.000,0.000>` yields
firmware_status = RUN, machine position (10, 5, 0) and work position
(9, 3, 0). -/
theorem C4_wco_work_position (st : CtrlState) (rest : List Nat) (a b : ℚ)
    (h0 : pyFloat ((splitCh 44 rest).getD 0 []) = some a)
    (h1 : pyFloat ((splitCh 44 rest).getD 1 []) = some b)
    (hlen : 2 ≤ (splitCh 44 rest).length) :
    applyPart st (strL "WCO:" ++ rest)
      = some { st with work_x := st.machine_x - a, work_y := st.machine_y - b } ∧
    parse_status_report initCtrl
        (strL "<Run|MPos:10.000,5.000,0.000|WCO:1.000,2.000,0.000>")
      = some ⟨.RUN, 10, 5, 0, 9, 3, 0, 0, 0⟩ := by
  constructor
  · have hMP : (strL "MPos:").isPrefixOf (strL "WCO:" ++ rest) = false := rfl
    have hWP : (strL "WPos:").isPrefixOf (strL "WCO:" ++ rest) = false := rfl
    have hW : (strL "WCO:").isPrefixOf (strL "WCO:" ++ rest) = true := by
      rw [List.isPrefixOf_iff_prefix]
      exact ⟨rest, rfl⟩
    have hdrop : (strL "WCO:" ++ rest).drop 4 = rest := rfl
    rw [List.getD_eq_getElem?_getD] at h0 h1
    simp [applyPart, hMP, hWP, hW, hdrop, hlen, h0, h1]
  · show parse_status_report initCtrl
      [60, 82, 117, 110, 124, 77, 80, 111, 115, 58, 49, 48, 46, 48, 48, 48, 44, 53, 46, 48, 48, 48, 44, 48, 46, 48, 48, 48, 124, 87, 67, 79, 58, 49, 46, 48, 48, 48, 44, 50, 46, 48, 48, 48, 44, 48, 46, 48, 48, 48, 62]
      = some ⟨.RUN, 10, 5, 0, 9, 3, 0, 0, 0⟩
    norm_num [parse_status_report, stripAngle, isAngle, splitCh, parseState, pyStrip, lstrip, rstrip,
    isSpace, applyParts, applyPart, pyFloat, decNum, digitsToNat, isDigitCh,
    initCtrl, strL_MPos, strL_WPos, strL_WCO, strL_FS, strL_F, strL_Idle, strL_Run, strL_Jog,
    strL_Hold, strL_Door, strL_Home, strL_Alarm, strL_Check, List.isPrefixOf,
    chvSpace, chvColon, chvUA, chvUC, chvUD, chvUF, chvUH, chvUI, chvUJ, chvUM, chvUO, chvUP, chvUR, chvUS, chvUW, chvlA, chvlC, chvlD, chvlE, chvlG, chvlH, chvlK, chvlL, chvlM, chvlN, chvlO, chvlR, chvlS, chvlU]

/-- Witness for C4: the WCO lemma applied at the initial controller
state and the concrete field `WCO:1,2`. -/
theorem C4_wco_witness :
    applyPart initCtrl (strL "WCO:" ++ strL "1,2")
      = some { initCtrl with work_x := initCtrl.machine_x - 1, work_y := initCtrl.machine_y - 2 } ∧
    parse_status_report initCtrl
        (strL "<Run|MPos:10.000,5.000,0.000|WCO:1.000,2.000,0.000>")
      = some ⟨.RUN, 10, 5, 0, 9, 3, 0, 0, 0⟩ :=
  C4_wco_work_position initCtrl (strL "1,2") 1 2 (by decide) (by decide) (by decide)

/-! ### Streaming engine (grbl_controller.py): character-counting protocol -/

/-- The controller state relevant to streaming: the loaded program's
commands (`self._file.commands`; `has_file` is false when `self._file`
is `None`), the in-flight byte costs (`self._buffer_fill`), the send
cursor (`self._cmd_index`), the worker flags, and the RX-side
acknowledgment event (`self._rx_event`). -/
structure StreamState where
  commands : List GCodeCommand
  buffer_fill : List Nat
  cmd_index : Nat
  streaming : Bool
  paused : Bool
  abort_flag : Bool
  alive : Bool
  connected : Bool
  has_file : Bool
  rx_event : Bool
  status : MachineStatus
deriving DecidableEq

/-- `GrblController.RX_BUFFER_SIZE = 128`. -/
def RX_BUFFER_SIZE : Nat := 128

/-- `GCodeFile.reset_status`: every command back to QUEUED, error codes
cleared. -/
def reset_status (l : List GCodeCommand) : List GCodeCommand :=
  l.map (fun c => { c with status := .QUEUED, error_code := none })

/-- The marking loop of `_handle_ok`: the first SENT command becomes
OK; nothing else changes. -/
def ackFirstOk : List GCodeCommand → List GCodeCommand
  | [] => []
  | c :: r => if c.status = .SENT then { c with status := .OK } :: r else c :: ackFirstOk r

/-- The marking loop of `_handle_error`: the first SENT command becomes
ERROR and records the code. -/
def ackFirstError (code : Nat) : List GCodeCommand → List GCodeCommand
  | [] => []
  | c :: r =>
    if c.status = .SENT then { c with status := .ERROR, error_code := some code } :: r
    else c :: ackFirstError code r

/-- `_handle_ok`: pop the head of `_buffer_fill` (the guarded `pop(0)`;
popping an empty list is a no-op), and when a file is loaded and
streaming, mark the oldest SENT command OK and set the RX event. -/
def handle_ok (s : StreamState) : StreamState :=
  { s with buffer_fill := s.buffer_fill.tail,
           commands := if s.has_file && s.streaming then ackFirstOk s.commands else s.commands,
           rx_event := if s.has_file && s.streaming then true else s.rx_event }

/-- `_handle_error code`: like `_handle_ok` with ERROR and the code. -/
def handle_error (code : Nat) (s : StreamState) : StreamState :=
  { s with buffer_fill := s.buffer_fill.tail,
           commands := if s.has_file && s.streaming then ackFirstError code s.commands
             else s.commands,
           rx_event := if s.has_file && s.streaming then true else s.rx_event }

/-- The send guard of one `_tx_loop` iteration: streaming, alive, a
loaded file with a command left at the cursor, neither aborted nor
paused, and the wait loop has observed room: current occupancy plus the
command's cost within `RX_BUFFER_SIZE`. -/
def tx_guard (s : StreamState) : Bool :=
  s.streaming && s.alive && s.has_file && !s.abort_flag && !s.paused &&
    match s.commands[s.cmd_index]? with
    | some c => s.buffer_fill.sum + c.byte_count ≤ RX_BUFFER_SIZE
    | none => false

/-- The send of one `_tx_loop` iteration: write `serial_bytes`, append
the cost to `_buffer_fill`, mark the command SENT, advance the cursor. -/
def tx_send (s : StreamState) : StreamState :=
  match s.commands[s.cmd_index]? with
  | none => s
  | some c =>
    { s with buffer_fill := s.buffer_fill ++ [c.byte_count],
             commands := s.commands.set s.cmd_index { c with status := .SENT },
             cmd_index := s.cmd_index + 1 }

/-- `soft_reset` as it affects the streaming state: stop streaming,
clear `_buffer_fill`, force IDLE (the `\x18` write is traced in the
`CtrlIo` model below). -/
def soft_resetS (s : StreamState) : StreamState :=
  { s with streaming := false, buffer_fill := [], status := .IDLE }

/-- The state set up by a successful `start_stream` (after its
precondition checks): statuses reset, cursor rewound, inflight cleared,
`streaming := true`, `paused := false`, `abort := false`. -/
def init_stream (s : StreamState) : StreamState :=
  { s with commands := reset_status s.commands, cmd_index := 0, buffer_fill := [],
           streaming := true, paused := false, abort_flag := false }

/-- `start_stream`: return unchanged unless a file is loaded, the port
is connected and no stream is in progress; otherwise initialize and
start the TX worker (the Boolean records whether it was started). -/
def start_stream (s : StreamState) : StreamState × Bool :=
  if !s.has_file || !s.connected then (s, false)
  else if s.streaming then (s, false)
  else (init_stream s, true)

/-- One interleaved step of the workers while a program is loaded: a TX
send, an RX acknowledgment (`ok` / `error:n`), a soft reset (the abort
path), the TX loop ending (`_streaming = False`), feed-hold,
cycle-resume, or the abort flag being raised. -/
inductive StreamStep : StreamState → StreamState → Prop
  | tx (s : StreamState) (h : tx_guard s = true) : StreamStep s (tx_send s)
  | ok (s : StreamState) : StreamStep s (handle_ok s)
  | err (s : StreamState) (code : Nat) : StreamStep s (handle_error code s)
  | reset (s : StreamState) : StreamStep s (soft_resetS s)
  | stop (s : StreamState) : StreamStep s { s with streaming := false }
  | hold (s : StreamState) : StreamStep s { s with paused := true }
  | resume (s : StreamState) : StreamStep s { s with paused := false }
  | mark_abort (s : StreamState) : StreamStep s { s with abort_flag := true }

/-- The steps of a single streaming run, while `_streaming` stays true:
no soft reset and no TX-loop end. -/
inductive RunStep : StreamState → StreamState → Prop
  | tx (s : StreamState) (h : tx_guard s = true) : RunStep s (tx_send s)
  | ok (s : StreamState) : RunStep s (handle_ok s)
  | err (s : StreamState) (code : Nat) : RunStep s (handle_error code s)
  | hold (s : StreamState) : RunStep s { s with paused := true }
  | resume (s : StreamState) : RunStep s { s with paused := false }
  | mark_abort (s : StreamState) : RunStep s { s with abort_flag := true }

theorem sum_tail_le (l : List Nat) : l.tail.sum ≤ l.sum := by
  cases l with
  | nil => simp
  | cons a t => simp

theorem streamStep_buffer_bound (s t : StreamState) (hstep : StreamStep s t)
    (h : s.buffer_fill.sum ≤ RX_BUFFER_SIZE) : t.buffer_fill.sum ≤ RX_BUFFER_SIZE := by
  cases hstep with
  | tx hg =>
    unfold tx_guard at hg
    unfold tx_send
    cases hc : s.commands[s.cmd_index]? with
    | none => simpa using h
    | some c =>
      rw [hc] at hg
      simp only [Bool.and_eq_true, decide_eq_true_eq] at hg
      simp only [List.sum_append, List.sum_cons, List.sum_nil]
      have := hg.2
      omega
  | ok => exact le_trans (sum_tail_le _) h
  | err code => exact le_trans (sum_tail_le _) h
  | reset => simp [soft_resetS]
  | stop => exact h
  | hold => exact h
  | resume => exact h
  | mark_abort => exact h

/-- C1: flow-control safety.  From any start of a streaming run, every
state reachable through interleaved TX sends, RX acknowledgments, soft
resets and flag changes keeps the sum of the in-flight byte costs
(`_buffer_fill`) at most `RX_BUFFER_SIZE = 128`: the TX worker appends
a command's cost only after the wait loop observes room for it, and the
RX worker only pops entries. -/
theorem C1_buffer_bound (s t : StreamState)
    (h : Relation.ReflTransGen StreamStep (init_stream s) t) :
    t.buffer_fill.sum ≤ RX_BUFFER_SIZE := by
  induction h with
  | refl => simp [init_stream, RX_BUFFER_SIZE]
  | tail h1 h2 ih => exact streamStep_buffer_bound _ _ h2 ih

/-- A small concrete controller state used by the witnesses: two queued
commands, idle, connected, nothing in flight. -/
def sampleIdle : StreamState :=
  { commands := [⟨strL "G0 X1", .QUEUED, none⟩, ⟨strL "G1 X2", .QUEUED, none⟩],
    buffer_fill := [], cmd_index := 0, streaming := false, paused := false,
    abort_flag := false, alive := true, connected := true, has_file := true,
    rx_event := false, status := .IDLE }

/-- Witness for C1 at the start state of a run on `sampleIdle`. -/
theorem C1_witness : (init_stream sampleIdle).buffer_fill.sum ≤ RX_BUFFER_SIZE :=
  C1_buffer_bound sampleIdle (init_stream sampleIdle) Relation.ReflTransGen.refl

/-! ### C2/C9: FIFO acknowledgment matching -/

theorem ackFirstOk_no_sent : ∀ (l : List GCodeCommand), (∀ c ∈ l, c.status ≠ .SENT) →
    ackFirstOk l = l := by
  intro l
  induction l with
  | nil => intro _; rfl
  | cons c r ih =>
    intro h
    have hc : c.status ≠ .SENT := h c (by simp)
    simp only [ackFirstOk, if_neg hc]
    rw [ih (fun d hd => h d (by simp [hd]))]

theorem ackFirstError_no_sent : ∀ (code : Nat) (l : List GCodeCommand),
    (∀ c ∈ l, c.status ≠ .SENT) → ackFirstError code l = l := by
  intro code l
  induction l with
  | nil => intro _; rfl
  | cons c r ih =>
    intro h
    have hc : c.status ≠ .SENT := h c (by simp)
    simp only [ackFirstError, if_neg hc]
    rw [ih (fun d hd => h d (by simp [hd]))]

theorem ackFirstOk_append : ∀ (A l : List GCodeCommand), (∀ c ∈ A, c.status ≠ .SENT) →
    ackFirstOk (A ++ l) = A ++ ackFirstOk l := by
  intro A
  induction A with
  | nil => intro l _; rfl
  | cons a A ih =>
    intro l hA
    have ha : a.status ≠ .SENT := hA a (by simp)
    simp only [List.cons_append, ackFirstOk, if_neg ha, List.append_eq]
    rw [ih l (fun d hd => hA d (by simp [hd]))]

theorem ackFirstError_append : ∀ (code : Nat) (A l : List GCodeCommand),
    (∀ c ∈ A, c.status ≠ .SENT) → ackFirstError code (A ++ l) = A ++ ackFirstError code l := by
  intro code A
  induction A with
  | nil => intro l _; rfl
  | cons a A ih =>
    intro l hA
    have ha : a.status ≠ .SENT := hA a (by simp)
    simp only [List.cons_append, ackFirstError, if_neg ha, List.append_eq]
    rw [ih l (fun d hd => hA d (by simp [hd]))]

theorem ackFirstOk_cons_sent (b : GCodeCommand) (r : List GCodeCommand) (hb : b.status = .SENT) :
    ackFirstOk (b :: r) = { b with status := .OK } :: r := by
  simp [ackFirstOk, hb]

theorem ackFirstError_cons_sent (code : Nat) (b : GCodeCommand) (r : List GCodeCommand)
    (hb : b.status = .SENT) :
    ackFirstError code (b :: r) = { b with status := .ERROR, error_code := some code } :: r := by
  simp [ackFirstError, hb]

theorem getElem?_append_shift : ∀ (A l : List GCodeCommand) (i : Nat),
    (A ++ l)[A.length + i]? = l[i]? := by
  intro A
  induction A with
  | nil => intro l i; simp
  | cons a A ih =>
    intro l i
    simp only [List.cons_append, List.length_cons]
    rw [show A.length + 1 + i = (A.length + i) + 1 by omega]
    simp only [List.getElem?_cons_succ]
    exact ih l i

theorem set_append_shift (v : GCodeCommand) : ∀ (A l : List GCodeCommand) (i : Nat),
    (A ++ l).set (A.length + i) v = A ++ l.set i v := by
  intro A
  induction A with
  | nil => intro l i; simp
  | cons a A ih =>
    intro l i
    simp only [List.cons_append, List.length_cons]
    rw [show A.length + 1 + i = (A.length + i) + 1 by omega]
    simp only [List.set_cons_succ]
    rw [ih l i]

/-- Invariant of a streaming run: the program splits into the acked
prefix, the SENT block, and the QUEUED tail; the cursor sits at the end
of the SENT block, and `_buffer_fill` has exactly one entry (the byte
cost) per SENT command. -/
def RunInv (s : StreamState) : Prop :=
  ∃ A B C, s.commands = A ++ B ++ C ∧
    (∀ c ∈ A, c.status = .OK ∨ c.status = .ERROR) ∧
    (∀ c ∈ B, c.status = .SENT) ∧
    (∀ c ∈ C, c.status = .QUEUED) ∧
    s.cmd_index = A.length + B.length ∧
    s.buffer_fill.length = B.length ∧
    s.streaming = true ∧ s.has_file = true

theorem runInv_init (s : StreamState) (hfile : s.has_file = true) : RunInv (init_stream s) := by
  refine ⟨[], [], reset_status s.commands, by simp [init_stream], by simp, by simp, ?_,
    by simp [init_stream], by simp [init_stream], by simp [init_stream],
    by simpa [init_stream] using hfile⟩
  intro c hc
  simp only [reset_status, List.mem_map] at hc
  obtain ⟨d, _, hd⟩ := hc
  rw [← hd]

theorem status_acked_ne_sent (c : GCodeCommand)
    (h : c.status = .OK ∨ c.status = .ERROR) : c.status ≠ .SENT := by
  rcases h with h | h <;> simp [h]

theorem runStep_inv (s t : StreamState) (hstep : RunStep s t) (hinv : RunInv s) : RunInv t := by
  obtain ⟨A, B, C, hcomm, hA, hB, hC, hcur, hbuf, hstr, hfile⟩ := hinv
  cases hstep with
  | tx hg =>
    unfold tx_guard at hg
    cases hc : s.commands[s.cmd_index]? with
    | none =>
      rw [hc] at hg
      simp at hg
    | some c =>
      have hcc : C[0]? = some c := by
        have hshift := getElem?_append_shift (A ++ B) C 0
        rw [List.length_append, Nat.add_zero] at hshift
        rw [hcomm, hcur] at hc
        rw [← hshift]
        exact hc
      cases C with
      | nil => simp at hcc
      | cons c0 C' =>
        have hc0 : c0 = c := by simpa using hcc
        subst hc0
        unfold tx_send
        rw [hc]
        refine ⟨A, B ++ [{ c0 with status := .SENT }], C', ?_, hA, ?_, ?_, ?_, ?_, hstr, hfile⟩
        · show s.commands.set s.cmd_index { c0 with status := .SENT } = _
          rw [hcomm, hcur]
          have hset := set_append_shift { c0 with status := .SENT } (A ++ B) (c0 :: C') 0
          rw [List.length_append, Nat.add_zero] at hset
          rw [hset]
          simp
        · intro x hx
          rcases List.mem_append.mp hx with hx | hx
          · exact hB x hx
          · simp at hx
            rw [hx]
        · intro x hx
          exact hC x (by simp [hx])
        · show s.cmd_index + 1 = _
          rw [hcur, List.length_append]
          simp
          omega
        · show (s.buffer_fill ++ [c0.byte_count]).length = _
          rw [List.length_append, List.length_append, hbuf]
          simp
  | ok =>
    have hcond : (s.has_file && s.streaming) = true := by simp [hfile, hstr]
    cases B with
    | nil =>
      have hnos : ∀ c ∈ s.commands, c.status ≠ .SENT := by
        intro c hcm
        rw [hcomm] at hcm
        simp only [List.append_nil, List.mem_append] at hcm
        rcases hcm with hcm | hcm
        · exact status_acked_ne_sent c (hA c hcm)
        · have := hC c hcm
          simp [this]
      have hbuf0 : s.buffer_fill = [] := List.eq_nil_of_length_eq_zero (by simpa using hbuf)
      refine ⟨A, [], C, ?_, hA, by simp, hC, ?_, ?_, hstr, hfile⟩
      · show (if s.has_file && s.streaming then ackFirstOk s.commands else s.commands) = _
        rw [hcond, if_pos rfl, ackFirstOk_no_sent s.commands hnos]
        exact hcomm
      · exact hcur
      · show s.buffer_fill.tail.length = _
        rw [hbuf0]
        rfl
    | cons b B' =>
      have hbS : b.status = .SENT := hB b (by simp)
      have hAne : ∀ c ∈ A, c.status ≠ .SENT := fun c hc => status_acked_ne_sent c (hA c hc)
      have hack : ackFirstOk s.commands = A ++ ({ b with status := .OK } :: (B' ++ C)) := by
        rw [hcomm]
        rw [show A ++ (b :: B') ++ C = A ++ (b :: (B' ++ C)) by simp]
        rw [ackFirstOk_append A _ hAne, ackFirstOk_cons_sent b _ hbS]
      refine ⟨A ++ [{ b with status := .OK }], B', C, ?_, ?_, ?_, hC, ?_, ?_, hstr, hfile⟩
      · show (if s.has_file && s.streaming then ackFirstOk s.commands else s.commands) = _
        rw [hcond, if_pos rfl, hack]
        simp
      · intro x hx
        rcases List.mem_append.mp hx with hx | hx
        · exact hA x hx
        · simp at hx
          rw [hx]
          simp
      · intro x hx
        exact hB x (by simp [hx])
      · show s.cmd_index = _
        rw [hcur, List.length_append]
        simp
        omega
      · show s.buffer_fill.tail.length = _
        rw [List.length_tail, hbuf]
        simp
  | err code =>
    have hcond : (s.has_file && s.streaming) = true := by simp [hfile, hstr]
    cases B with
    | nil =>
      have hnos : ∀ c ∈ s.commands, c.status ≠ .SENT := by
        intro c hcm
        rw [hcomm] at hcm
        simp only [List.append_nil, List.mem_append] at hcm
        rcases hcm with hcm | hcm
        · exact status_acked_ne_sent c (hA c hcm)
        · have := hC c hcm
          simp [this]
      have hbuf0 : s.buffer_fill = [] := List.eq_nil_of_length_eq_zero (by simpa using hbuf)
      refine ⟨A, [], C, ?_, hA, by simp, hC, ?_, ?_, hstr, hfile⟩
      · show (if s.has_file && s.streaming then ackFirstError code s.commands else s.commands) = _
        rw [hcond, if_pos rfl, ackFirstError_no_sent code s.commands hnos]
        exact hcomm
      · exact hcur
      · show s.buffer_fill.tail.length = _
        rw [hbuf0]
        rfl
    | cons b B' =>
      have hbS : b.status = .SENT := hB b (by simp)
      have hAne : ∀ c ∈ A, c.status ≠ .SENT := fun c hc => status_acked_ne_sent c (hA c hc)
      have hack : ackFirstError code s.commands
          = A ++ ({ b with status := .ERROR, error_code := some code } :: (B' ++ C)) := by
        rw [hcomm]
        rw [show A ++ (b :: B') ++ C = A ++ (b :: (B' ++ C)) by simp]
        rw [ackFirstError_append code A _ hAne, ackFirstError_cons_sent code b _ hbS]
      refine ⟨A ++ [{ b with status := .ERROR, error_code := some code }], B', C,
        ?_, ?_, ?_, hC, ?_, ?_, hstr, hfile⟩
      · show (if s.has_file && s.streaming then ackFirstError code s.commands else s.commands) = _
        rw [hcond, if_pos rfl, hack]
        simp
      · intro x hx
        rcases List.mem_append.mp hx with hx | hx
        · exact hA x hx
        · simp at hx
          rw [hx]
          simp
      · intro x hx
        exact hB x (by simp [hx])
      · show s.cmd_index = _
        rw [hcur, List.length_append]
        simp
        omega
      · show s.buffer_fill.tail.length = _
        rw [List.length_tail, hbuf]
        simp
  | hold => exact ⟨A, B, C, hcomm, hA, hB, hC, hcur, hbuf, hstr, hfile⟩
  | resume => exact ⟨A, B, C, hcomm, hA, hB, hC, hcur, hbuf, hstr, hfile⟩
  | mark_abort => exact ⟨A, B, C, hcomm, hA, hB, hC, hcur, hbuf, hstr, hfile⟩

theorem runReach_inv (s t : StreamState) (hfile : s.has_file = true)
    (h : Relation.ReflTransGen RunStep (init_stream s) t) : RunInv t := by
  induction h with
  | refl => exact runInv_init s hfile
  | tail h1 h2 ih => exact runStep_inv _ _ h2 ih

/-- C2: FIFO acknowledgment matching.  In every state of a streaming
run (reachable from `start_stream`'s initialization through sends,
acknowledgments and flag changes) in which at least one command is
SENT, the program splits as `A ++ b :: B ++ C` where `A` — exactly the
commands already acknowledged (so after `k − 1` acknowledgments the
oldest SENT command `b` is the `k`-th command sent) — precedes the
oldest SENT command `b`; processing `ok` turns exactly `b` to OK, and
processing `error:n` turns exactly `b` to ERROR with code `n`; in both
cases the head of the non-empty inflight queue is popped, and no other
command's status or error code changes. -/
theorem C2_fifo_ack (s t : StreamState) (hfile : s.has_file = true)
    (hreach : Relation.ReflTransGen RunStep (init_stream s) t)
    (hsent : ∃ c ∈ t.commands, c.status = .SENT) :
    ∃ A b B C, t.commands = A ++ b :: B ++ C ∧
      (∀ c ∈ A, c.status = .OK ∨ c.status = .ERROR) ∧
      b.status = .SENT ∧ (∀ c ∈ B, c.status = .SENT) ∧ (∀ c ∈ C, c.status = .QUEUED) ∧
      t.buffer_fill.length = B.length + 1 ∧
      handle_ok t = { t with commands := A ++ { b with status := .OK } :: B ++ C,
                             buffer_fill := t.buffer_fill.tail, rx_event := true } ∧
      (∀ k, handle_error k t = { t with
        commands := A ++ { b with status := .ERROR, error_code := some k } :: B ++ C,
        buffer_fill := t.buffer_fill.tail, rx_event := true }) := by
  obtain ⟨A, B, C, hcomm, hA, hB, hC, hcur, hbuf, hstr, hfile2⟩ := runReach_inv s t hfile hreach
  cases B with
  | nil =>
    exfalso
    obtain ⟨c, hcm, hcs⟩ := hsent
    rw [hcomm] at hcm
    simp only [List.append_nil, List.mem_append] at hcm
    rcases hcm with hcm | hcm
    · exact status_acked_ne_sent c (hA c hcm) hcs
    · have := hC c hcm
      rw [hcs] at this
      cases this
  | cons b B' =>
    have hbS : b.status = .SENT := hB b (by simp)
    have hAne : ∀ c ∈ A, c.status ≠ .SENT := fun c hc => status_acked_ne_sent c (hA c hc)
    have hcond : (t.has_file && t.streaming) = true := by simp [hfile2, hstr]
    have hcomm2 : t.commands = A ++ b :: B' ++ C := by rw [hcomm]
    have hackOk : ackFirstOk t.commands = A ++ { b with status := .OK } :: B' ++ C := by
      rw [hcomm, List.append_assoc, List.cons_append]
      rw [ackFirstOk_append A _ hAne, ackFirstOk_cons_sent b _ hbS]
      rw [← List.cons_append, ← List.append_assoc]
    refine ⟨A, b, B', C, hcomm2, hA, hbS, fun c hc => hB c (by simp [hc]), hC, ?_, ?_, ?_⟩
    · rw [hbuf]
      simp
    · unfold handle_ok
      rw [hcond, if_pos rfl, if_pos rfl, hackOk]
    · intro k
      have hackErr : ackFirstError k t.commands
          = A ++ { b with status := .ERROR, error_code := some k } :: B' ++ C := by
        rw [hcomm, List.append_assoc, List.cons_append]
        rw [ackFirstError_append k A _ hAne, ackFirstError_cons_sent k b _ hbS]
        rw [← List.cons_append, ← List.append_assoc]
      unfold handle_error
      rw [hcond, if_pos rfl, if_pos rfl, hackErr]

/-- Witness for C2: the run that sends the first command of
`sampleIdle` and then receives its acknowledgment. -/
theorem C2_witness :
    sampleIdle.has_file = true ∧
    (∃ c ∈ (tx_send (init_stream sampleIdle)).commands, c.status = .SENT) ∧
    (∃ A b B C, (tx_send (init_stream sampleIdle)).commands = A ++ b :: B ++ C ∧
      (∀ c ∈ A, c.status = .OK ∨ c.status = .ERROR) ∧
      b.status = .SENT ∧ (∀ c ∈ B, c.status = .SENT) ∧ (∀ c ∈ C, c.status = .QUEUED) ∧
      (tx_send (init_stream sampleIdle)).buffer_fill.length = B.length + 1 ∧
      handle_ok (tx_send (init_stream sampleIdle)) = { tx_send (init_stream sampleIdle) with
        commands := A ++ { b with status := .OK } :: B ++ C,
        buffer_fill := (tx_send (init_stream sampleIdle)).buffer_fill.tail, rx_event := true } ∧
      (∀ k, handle_error k (tx_send (init_stream sampleIdle))
        = { tx_send (init_stream sampleIdle) with
            commands := A ++ { b with status := .ERROR, error_code := some k } :: B ++ C,
            buffer_fill := (tx_send (init_stream sampleIdle)).buffer_fill.tail,
            rx_event := true })) :=
  ⟨rfl, by decide,
    C2_fifo_ack sampleIdle (tx_send (init_stream sampleIdle)) rfl
      (Relation.ReflTransGen.single (RunStep.tx (init_stream sampleIdle) (by decide)))
      (by decide)⟩

/-- C9: a stray acknowledgment is dropped without state corruption.
When no command is SENT and `_buffer_fill` is empty, `_handle_ok` and
`_handle_error` leave every command's status and error code, the
inflight queue, the cursor, and the streaming/paused/abort flags
unchanged (only the RX event may be set). -/
theorem C9_stray_ack (s : StreamState) (hbuf : s.buffer_fill = [])
    (hns : ∀ c ∈ s.commands, c.status ≠ .SENT) :
    handle_ok s = { s with rx_event := if s.has_file && s.streaming then true else s.rx_event } ∧
    (∀ k, handle_error k s
      = { s with rx_event := if s.has_file && s.streaming then true else s.rx_event }) := by
  constructor
  · unfold handle_ok
    by_cases hc : (s.has_file && s.streaming) = true
    · rw [hc, if_pos rfl, if_pos rfl, ackFirstOk_no_sent s.commands hns]
      simp [hbuf]
    · rw [if_neg hc, if_neg hc]
      simp [hbuf]
  · intro k
    unfold handle_error
    by_cases hc : (s.has_file && s.streaming) = true
    · rw [hc, if_pos rfl, if_pos rfl, ackFirstError_no_sent k s.commands hns]
      simp [hbuf]
    · rw [if_neg hc, if_neg hc]
      simp [hbuf]

/-- Witness for C9 at `sampleIdle` (empty inflight queue, no SENT
command). -/
theorem C9_witness :
    handle_ok sampleIdle
      = { sampleIdle with
          rx_event := if sampleIdle.has_file && sampleIdle.streaming then true
            else sampleIdle.rx_event } ∧
    (∀ k, handle_error k sampleIdle
      = { sampleIdle with
          rx_event := if sampleIdle.has_file && sampleIdle.streaming then true
            else sampleIdle.rx_event }) :=
  C9_stray_ack sampleIdle rfl (by decide)

/-- C10: `start_stream` invoked without its preconditions — no file
loaded, not connected, or already streaming — is a no-op: the state is
returned unchanged (no status reset, no cursor/inflight/flag change)
and the TX worker is not started, so no bytes are written. -/
theorem C10_start_stream_noop (s : StreamState)
    (h : s.has_file = false ∨ s.connected = false ∨ s.streaming = true) :
    start_stream s = (s, false) := by
  rcases h with h | h | h
  · simp [start_stream, h]
  · simp [start_stream, h]
  · simp [start_stream, h]

/-- A controller state that is already streaming. -/
def sampleBusy : StreamState := { sampleIdle with streaming := true }

/-- Witness for C10 at a state that is already streaming. -/
theorem C10_witness :
    (sampleBusy.has_file = false ∨ sampleBusy.connected = false ∨ sampleBusy.streaming = true) ∧
    start_stream sampleBusy = (sampleBusy, false) :=
  ⟨Or.inr (Or.inr rfl), C10_start_stream_noop sampleBusy (Or.inr (Or.inr rfl))⟩

/-! ### C8: `abort_stream` as a sequence of state changes and I/O -/

/-- Observable serial-side effects: a write of bytes, or a sleep in
milliseconds (`time.sleep(0.5)` = 500 ms). -/
inductive SerialEv where
  | write (data : List Nat) : SerialEv
  | sleep_ms (n : Nat) : SerialEv
deriving DecidableEq

/-- The controller fields touched by the abort path. -/
structure CtrlIo where
  connected : Bool
  streaming : Bool
  paused : Bool
  abort_flag : Bool
  buffer_fill : List Nat
  status : MachineStatus
deriving DecidableEq

/-- `_send_realtime`: writes the bytes iff the port is open. -/
def send_realtime (s : CtrlIo) (data : List Nat) : List SerialEv :=
  if s.connected then [.write data] else []

/-- `soft_reset`: write Ctrl-X (`\x18` = 24), stop streaming, clear
`_buffer_fill`, force status IDLE. -/
def soft_reset (s : CtrlIo) : CtrlIo × List SerialEv :=
  ({ s with streaming := false, buffer_fill := [], status := .IDLE }, send_realtime s [24])

/-- `send_command`: require a connection, strip the text, drop empty
commands, else write the stripped line followed by a newline. -/
def send_command (s : CtrlIo) (cmd_str : List Nat) : List SerialEv :=
  if !s.connected then []
  else
    let t := pyStrip cmd_str
    if t.isEmpty then [] else [.write (t ++ [10])]

/-- `abort_stream`: raise the abort flag, stop streaming, soft-reset,
wait 500 ms, then send `M5` and `G0 X0 Y0` as ordinary command writes. -/
def abort_stream (s : CtrlIo) : CtrlIo × List SerialEv :=
  let s1 := { s with abort_flag := true, streaming := false }
  let p := soft_reset s1
  (p.1, p.2 ++ [.sleep_ms 500] ++ send_command p.1 (strL "M5")
    ++ send_command p.1 (strL "G0 X0 Y0"))

theorem strL_M5 : strL "M5" = [77, 53] := rfl

theorem strL_G0X0Y0 : strL "G0 X0 Y0" = [71, 48, 32, 88, 48, 32, 89, 48] := rfl

/-- C8: on a connected controller, aborting a stream performs in order:
set the abort flag, write the single soft-reset byte `\x18`, clear the
inflight queue, force firmware status IDLE, wait 500 ms, then write the
line `M5` followed by the line `G0 X0 Y0` as ordinary (non-streamed)
command writes. -/
theorem C8_abort_stream (s : CtrlIo) (h : s.connected = true) :
    abort_stream s =
      ({ s with abort_flag := true, streaming := false, buffer_fill := [], status := .IDLE },
       [.write [24], .sleep_ms 500, .write (strL "M5" ++ [10]),
        .write (strL "G0 X0 Y0" ++ [10])]) := by
  unfold abort_stream soft_reset send_realtime send_command
  simp only [strL_M5, strL_G0X0Y0]
  norm_num [h, pyStrip, lstrip, rstrip, isSpace]

/-- A concrete connected, streaming controller. -/
def sampleIo : CtrlIo := ⟨true, true, false, false, [6, 6], .RUN⟩

/-- Witness for C8 at `sampleIo`. -/
theorem C8_witness :
    abort_stream sampleIo =
      ({ sampleIo with abort_flag := true, streaming := false, buffer_fill := [],
                       status := .IDLE },
       [.write [24], .sleep_ms 500, .write (strL "M5" ++ [10]),
        .write (strL "G0 X0 Y0" ++ [10])]) :=
  C8_abort_stream sampleIo rfl
